import Mathlib

/-!
Verification of the ipyplot label-grouping core and its public entry points.

The public entry points (`plot_class_tabs`, `plot_images`,
`plot_class_representations`) are embedded from `src/ipyplot/plotting.py`.
The core operations they delegate to (`create_tabs` / group-and-cap,
`create_imgs_grid`, `get_class_representations` / representative-select)
live in `html_helpers.py` and `utils.py`, which are not part of the given
sources; those are modelled from the spec (sections 4 and 6).

Items are kept opaque (a type variable `α`); labels are the spec's sum type
`Label = String | Integer` (spec section 9), with a total order used for the
natural-sort fallback.
-/

/-- The spec's label type: a string or an integer (spec section 9). -/
inductive Label where
  | str : String → Label
  | int : Int → Label
deriving DecidableEq, Repr

/-- Total order on labels for the natural-sort fallback (spec section 9
asks for some defined total order on the string/integer sum): integers
first, ordered as integers; then strings, ordered as strings. -/
def Label.ble : Label → Label → Bool
  | .int m, .int n => decide (m ≤ n)
  | .int _, .str _ => true
  | .str _, .int _ => false
  | .str s, .str t => decide (s ≤ t)

instance : LE Label := ⟨fun a b => Label.ble a b = true⟩

instance : DecidableRel (fun (a b : Label) => a ≤ b) := fun a b =>
  inferInstanceAs (Decidable (Label.ble a b = true))

theorem Label.le_def (a b : Label) : a ≤ b ↔ Label.ble a b = true := Iff.rfl

instance : IsTotal Label (· ≤ ·) := by
  constructor
  intro a b
  cases a <;> cases b <;> simp [Label.le_def, Label.ble]
  · exact le_total _ _
  · exact le_total _ _

instance : IsTrans Label (· ≤ ·) := by
  constructor
  intro a b c hab hbc
  cases a <;> cases b <;> cases c <;>
    simp [Label.le_def, Label.ble] at * <;> exact le_trans hab hbc

/-- Failure modes of the entry points, as Python exceptions: the
`assert(len(images) == len(labels))` precondition (an `AssertionError`)
and the `images[0]` access in the PIL-detection hack (an `IndexError`
on empty input), plus the spec's `ShapeMismatchError` for the core
group-and-cap operation. -/
inductive PlotError where
  | assertionError : PlotError
  | indexError : PlotError
  | shapeMismatch : PlotError
deriving DecidableEq, Repr

/-- First-occurrence deduplication: keeps the first occurrence of each
element, in order. `seen` accumulates the elements already emitted. -/
def firstDedupAux {β : Type} [DecidableEq β] (seen : List β) : List β → List β
  | [] => []
  | x :: xs =>
    if x ∈ seen then firstDedupAux seen xs
    else x :: firstDedupAux (x :: seen) xs

def firstDedup {β : Type} [DecidableEq β] (l : List β) : List β :=
  firstDedupAux [] l

/-- Modelled from the spec: the distinct labels present in the input, in
first-occurrence order (spec section 4, Operation A: "determine the set of
distinct labels present"). -/
def labelsPresent (labels : List Label) : List Label :=
  firstDedup labels

/-- Modelled from the spec: the full group of a label — the items bearing
that label, in original input order (spec section 4, Operation A:
"partition items by label preserving original relative order"). -/
def groupItems {α : Type} (items : List α) (labels : List Label) (lab : Label) :
    List α :=
  ((items.zip labels).filter (fun p => decide (p.2 = lab))).map Prod.fst

/-- Modelled from the spec: the output order of the groups — a supplied
group order restricted to labels present (absent labels silently omitted,
spec section 4 edge cases), else natural sorted order of the distinct
labels. Duplicates in a supplied order are collapsed to their first
occurrence so that the output is a mapping. -/
def orderKeys (present : List Label) (groupOrder : Option (List Label)) :
    List Label :=
  match groupOrder with
  | some o => firstDedup (o.filter (fun l => decide (l ∈ present)))
  | none => List.insertionSort (· ≤ ·) present

/-- Modelled from the spec: Operation A, group-and-cap, on already validated
inputs (`create_tabs` in the missing `html_helpers.py`): partition items by
label, truncate each group to at most `maxPerGroup` earliest items, output
the label/group pairs in the determined order. -/
def groupAndCapCore {α : Type} (items : List α) (labels : List Label)
    (maxPerGroup : Nat) (groupOrder : Option (List Label)) :
    List (Label × List α) :=
  (orderKeys (labelsPresent labels) groupOrder).map
    (fun lab => (lab, (groupItems items labels lab).take maxPerGroup))

/-- Modelled from the spec: Operation A with its length precondition
(spec section 4: "fails with ShapeMismatchError otherwise"). -/
def groupAndCap {α : Type} (items : List α) (labels : List Label)
    (maxPerGroup : Nat) (groupOrder : Option (List Label)) :
    Except PlotError (List (Label × List α)) :=
  if items.length = labels.length then
    Except.ok (groupAndCapCore items labels maxPerGroup groupOrder)
  else Except.error PlotError.shapeMismatch

/-- Modelled from the spec: the first item (in original sequence order)
bearing a label (spec section 4, Operation B). -/
def firstItemFor {α : Type} (items : List α) (labels : List Label)
    (lab : Label) : Option α :=
  ((items.zip labels).find? (fun p => decide (p.2 = lab))).map Prod.fst

/-- Modelled from the spec: the labels eligible for a representative — the
distinct labels present that are not in the ignore set (spec section 4,
Operation B: "for each distinct label not in ignore_set"). -/
def repKeep (labels : List Label) (ignoreSet : List Label) : List Label :=
  (labelsPresent labels).filter (fun l => decide (l ∉ ignoreSet))

/-- Modelled from the spec: the output order of the representatives — the
supplied label order restricted to eligible labels (absent or ignored ones
skipped), else natural sorted order. -/
def repOrder (labels ignoreSet : List Label)
    (labelOrder : Option (List Label)) : List Label :=
  match labelOrder with
  | some o => firstDedup (o.filter (fun l => decide (l ∈ repKeep labels ignoreSet)))
  | none => List.insertionSort (· ≤ ·) (repKeep labels ignoreSet)

/-- Modelled from the spec: Operation B, representative-select
(`get_class_representations` in the missing `utils.py`): for each distinct
label not in the ignore set, the first item bearing it, ordered per the
supplied label order restricted to eligible labels, else by natural sorted
order. -/
def representativeSelect {α : Type} (items : List α) (labels : List Label)
    (ignoreSet : List Label) (labelOrder : Option (List Label)) :
    List (Label × α) :=
  (repOrder labels ignoreSet labelOrder).filterMap
    (fun lab => (firstItemFor items labels lab).map (fun x => (lab, x)))

/-- Modelled from the spec: the renderer contract of `create_imgs_grid`
(spec section 6): the ordered label/item pairs handed to the markup
renderer, capped at `maxImages` (`plotting.py` line 107 passes
`max_images` through). HTML assembly itself is out of scope; the output
is the data the renderer receives. -/
def createImgsGrid {α : Type} (images : List α) (labels : List Label)
    (maxImages : Nat) : List (Label × α) :=
  (labels.zip images).take maxImages

/-- The integer labels `0 .. n-1` assigned when no labels are supplied. -/
def natLabels (n : Nat) : List Label :=
  (List.range n).map (fun i => Label.int (Int.ofNat i))

/-- The labels actually used by `plot_images`: the caller's labels when
supplied, else `list(range(0, len(images)))` (`plotting.py` lines 103-104). -/
def resolveLabels {α : Type} (images : List α) (labels : Option (List Label)) :
    List Label :=
  match labels with
  | some ls => ls
  | none => natLabels images.length

/-- `plot_images` (`plotting.py` lines 63-110): no length validation; the
PIL-detection hack reads `images[0]` (an `IndexError` on empty input);
`None` labels become `0 .. len(images)-1`; the result is handed to
`create_imgs_grid`. -/
def plot_images {α : Type} (images : List α) (labels : Option (List Label))
    (maxImages : Nat) : Except PlotError (List (Label × α)) :=
  if images.isEmpty then Except.error PlotError.indexError
  else Except.ok (createImgsGrid images (resolveLabels images labels) maxImages)

/-- `plot_class_tabs` (`plotting.py` lines 10-60): asserts equal lengths
(line 45), then reads `images[0]` in the PIL-detection hack (line 48),
then delegates to `create_tabs`, i.e. group-and-cap on validated input. -/
def plot_class_tabs {α : Type} (images : List α) (labels : List Label)
    (maxImgsPerTab : Nat) (tabsOrder : Option (List Label)) :
    Except PlotError (List (Label × List α)) :=
  if images.length = labels.length then
    if images.isEmpty then Except.error PlotError.indexError
    else Except.ok (groupAndCapCore images labels maxImgsPerTab tabsOrder)
  else Except.error PlotError.assertionError

/-- The default ignore list of `plot_class_representations`
(`plotting.py` line 116: `ignore_list = ['-1', 'unknown']`). -/
def defaultIgnoreList : List Label :=
  [Label.str "-1", Label.str "unknown"]

/-- `plot_class_representations` (`plotting.py` lines 113-165): asserts
equal lengths (line 145), reads `images[0]` (line 148), selects the
representatives, then calls `plot_images` on the representative images and
labels with `max_images = len(images)` (lines 156-165). -/
def plot_class_representations {α : Type} (images : List α)
    (labels : List Label) (ignoreList : List Label)
    (labelsOrder : Option (List Label)) : Except PlotError (List (Label × α)) :=
  if images.length = labels.length then
    if images.isEmpty then Except.error PlotError.indexError
    else
      let reps := representativeSelect images labels ignoreList labelsOrder
      plot_images (reps.map Prod.snd) (some (reps.map Prod.fst)) reps.length
  else Except.error PlotError.assertionError

/-! ### Basic lemmas about the dedup and ordering helpers -/

theorem mem_firstDedupAux {β : Type} [DecidableEq β] (seen : List β)
    (l : List β) (a : β) :
    a ∈ firstDedupAux seen l ↔ a ∈ l ∧ a ∉ seen := by
  induction l generalizing seen with
  | nil => simp [firstDedupAux]
  | cons x xs ih =>
    by_cases hx : x ∈ seen
    · simp only [firstDedupAux, if_pos hx, ih, List.mem_cons]
      constructor
      · rintro ⟨h1, h2⟩; exact ⟨Or.inr h1, h2⟩
      · rintro ⟨h1 | h1, h2⟩
        · exact absurd (h1 ▸ hx) h2
        · exact ⟨h1, h2⟩
    · simp only [firstDedupAux, if_neg hx, List.mem_cons, ih]
      constructor
      · rintro (rfl | ⟨h1, h2⟩)
        · exact ⟨Or.inl rfl, hx⟩
        · simp only [List.mem_cons, not_or] at h2
          exact ⟨Or.inr h1, h2.2⟩
      · rintro ⟨rfl | h1, h2⟩
        · exact Or.inl rfl
        · by_cases hax : a = x
          · exact Or.inl hax
          · exact Or.inr ⟨h1, by simp [List.mem_cons, hax, h2]⟩

theorem mem_firstDedup {β : Type} [DecidableEq β] (l : List β) (a : β) :
    a ∈ firstDedup l ↔ a ∈ l := by
  simp [firstDedup, mem_firstDedupAux]

theorem nodup_firstDedupAux {β : Type} [DecidableEq β] (seen : List β)
    (l : List β) : (firstDedupAux seen l).Nodup := by
  induction l generalizing seen with
  | nil => simp [firstDedupAux]
  | cons x xs ih =>
    by_cases hx : x ∈ seen
    · simpa [firstDedupAux, if_pos hx] using ih seen
    · rw [firstDedupAux, if_neg hx]
      refine List.Nodup.cons ?_ (ih (x :: seen))
      intro hmem
      rcases (mem_firstDedupAux _ _ _).1 hmem with ⟨_, hns⟩
      exact hns (List.mem_cons_self x seen)

theorem nodup_firstDedup {β : Type} [DecidableEq β] (l : List β) :
    (firstDedup l).Nodup :=
  nodup_firstDedupAux [] l

theorem firstDedupAux_eq_of_nodup {β : Type} [DecidableEq β] (seen : List β)
    (l : List β) (hl : l.Nodup) (hd : ∀ a ∈ l, a ∉ seen) :
    firstDedupAux seen l = l := by
  induction l generalizing seen with
  | nil => rfl
  | cons x xs ih =>
    have hx : x ∉ seen := hd x (List.mem_cons_self x xs)
    rw [firstDedupAux, if_neg hx]
    congr 1
    refine ih (x :: seen) hl.of_cons ?_
    intro a ha
    simp only [List.mem_cons, not_or]
    refine ⟨?_, hd a (List.mem_cons_of_mem x ha)⟩
    rintro rfl
    exact (List.nodup_cons.1 hl).1 ha

theorem firstDedup_eq_of_nodup {β : Type} [DecidableEq β] (l : List β)
    (hl : l.Nodup) : firstDedup l = l :=
  firstDedupAux_eq_of_nodup [] l hl (by simp)

theorem mem_labelsPresent (labels : List Label) (a : Label) :
    a ∈ labelsPresent labels ↔ a ∈ labels :=
  mem_firstDedup labels a

theorem mem_orderKeys (present : List Label) (go : Option (List Label))
    (a : Label) :
    a ∈ orderKeys present go ↔
      match go with
      | some o => a ∈ o ∧ a ∈ present
      | none => a ∈ present := by
  cases go with
  | some o =>
    simp [orderKeys, mem_firstDedup, List.mem_filter, decide_eq_true_iff]
  | none => simp [orderKeys]

theorem nodup_orderKeys (present : List Label) (go : Option (List Label))
    (hp : present.Nodup) : (orderKeys present go).Nodup := by
  cases go with
  | some o => exact nodup_firstDedup _
  | none =>
    exact ((List.perm_insertionSort (· ≤ ·) present).nodup_iff).2 hp

/-! ### C1: length-mismatch behaviour of the entry points -/

/-- C1 counterexample: `plot_images` performs no length validation
(`plotting.py` lines 96-110 contain no assert): with 1 item and 2 labels it
produces output instead of raising the length-mismatch precondition error. -/
theorem plot_images_no_length_check :
    plot_images ["a"] (some [Label.int 0, Label.int 1]) 30 =
      Except.ok [(Label.int 0, "a")] := rfl

/-- C1 (amended): for unequal-length inputs, `plot_class_tabs` and
`plot_class_representations` raise the length-mismatch assertion
immediately, regardless of contents, and produce no output; `plot_images`
performs no length validation and never raises that error. -/
theorem length_mismatch_behavior {α : Type} (images : List α)
    (labels : List Label) (h : images.length ≠ labels.length)
    (mt mi : Nat) (tord lo : Option (List Label)) (ig : List Label) :
    plot_class_tabs images labels mt tord =
        Except.error PlotError.assertionError ∧
    plot_class_representations images labels ig lo =
        Except.error PlotError.assertionError ∧
    plot_images images (some labels) mi ≠
        Except.error PlotError.assertionError := by
  refine ⟨?_, ?_, ?_⟩
  · simp [plot_class_tabs, h]
  · simp [plot_class_representations, h]
  · by_cases he : images.isEmpty <;> simp [plot_images, he]

/-- C1 witness: the amended statement at a concrete mismatched input. -/
theorem length_mismatch_behavior_witness :
    plot_class_tabs ["a"] [Label.int 0, Label.int 1] 15 none =
        Except.error PlotError.assertionError ∧
    plot_class_representations ["a"] [Label.int 0, Label.int 1] [] none =
        Except.error PlotError.assertionError ∧
    plot_images ["a"] (some [Label.int 0, Label.int 1]) 30 ≠
        Except.error PlotError.assertionError :=
  length_mismatch_behavior ["a"] [Label.int 0, Label.int 1]
    (by decide) 15 30 none none []

/-! ### C2: empty input -/

/-- C2 counterexample: on empty input the tabs entry point does not return
empty output — the PIL-detection hack reads `images[0]` (`plotting.py`
line 48) and fails with an index error. -/
theorem plot_class_tabs_empty_fails :
    plot_class_tabs ([] : List String) [] 15 none =
      Except.error PlotError.indexError := rfl

/-- C2 (amended): group-and-cap itself maps empty input to empty output,
but every public entry point fails on empty images with an index error,
raised by the `images[0]` access in the PIL-detection hack. -/
theorem empty_input_behavior {α : Type} (m mi : Nat)
    (go lo : Option (List Label)) (ol : Option (List Label))
    (ig : List Label) :
    groupAndCap ([] : List α) [] m go = Except.ok [] ∧
    plot_class_tabs ([] : List α) [] m go =
        Except.error PlotError.indexError ∧
    plot_images ([] : List α) ol mi = Except.error PlotError.indexError ∧
    plot_class_representations ([] : List α) [] ig lo =
        Except.error PlotError.indexError := by
  refine ⟨?_, rfl, rfl, rfl⟩
  cases go with
  | none => rfl
  | some o =>
    simp [groupAndCap, groupAndCapCore, orderKeys, labelsPresent,
      firstDedup, firstDedupAux]

/-! ### C8: default ignore list and the representative example -/

/-- C8: the representative-view ignore list defaults to exactly the
sentinels `'-1'` and `'unknown'` (`plotting.py` line 116), and on
`items = [a, b, c]`, `labels = [x, '-1', 'unknown']` with that default the
output is the single representative pair `(x, a)`. -/
theorem default_ignore_example :
    defaultIgnoreList = [Label.str "-1", Label.str "unknown"] ∧
    plot_class_representations ["a", "b", "c"]
        [Label.str "x", Label.str "-1", Label.str "unknown"]
        defaultIgnoreList none =
      Except.ok [(Label.str "x", "a")] :=
  ⟨rfl, rfl⟩

/-! ### C10: default labels of the flat grid -/

/-- C10: with `labels` omitted (`None`), `plot_images` labels the images
with the consecutive integers `0 .. len(images) - 1` in input order
(`plotting.py` lines 103-104). -/
theorem plot_images_default_labels {α : Type} (images : List α)
    (h : images ≠ []) (m : Nat) (hm : images.length ≤ m) :
    plot_images images none m =
      Except.ok ((natLabels images.length).zip images) := by
  have he : images.isEmpty = false := by
    cases images with
    | nil => exact absurd rfl h
    | cons a l => rfl
  rw [plot_images, he]
  simp only [Bool.false_eq_true, if_false, createImgsGrid, resolveLabels]
  congr 1
  apply List.take_of_length_le
  rw [List.length_zip, natLabels, List.length_map, List.length_range,
    Nat.min_self]
  exact hm

/-- C10 witness: two images, no labels, capped at the default 30. -/
theorem plot_images_default_labels_witness :
    plot_images ["a", "b"] none 30 =
      Except.ok ((natLabels 2).zip ["a", "b"]) :=
  plot_images_default_labels ["a", "b"] (by decide) 30 (by decide)

/-! ### Helper lemmas about groups, zips and first occurrences -/

theorem mem_groupItems {α : Type} (items : List α) (labels : List Label)
    (lab : Label) (x : α) :
    x ∈ groupItems items labels lab ↔ (x, lab) ∈ items.zip labels := by
  simp only [groupItems, List.mem_map, List.mem_filter, decide_eq_true_iff]
  constructor
  · rintro ⟨⟨a, b⟩, ⟨hp, h2⟩, h1⟩
    simp only at h1 h2
    subst h1; subst h2
    exact hp
  · intro hp
    exact ⟨(x, lab), ⟨hp, rfl⟩, rfl⟩

theorem find?_eq_some_split {α : Type} (p : α → Bool) (l : List α) (a : α)
    (h : l.find? p = some a) :
    ∃ pre post, l = pre ++ a :: post ∧ ∀ b ∈ pre, p b = false := by
  induction l with
  | nil => simp at h
  | cons x xs ih =>
    by_cases hx : p x = true
    · rw [List.find?_cons_of_pos _ hx] at h
      cases h
      exact ⟨[], xs, rfl, by simp⟩
    · rw [List.find?_cons_of_neg _ hx] at h
      rcases ih h with ⟨pre, post, rfl, hpre⟩
      refine ⟨x :: pre, post, rfl, ?_⟩
      intro b hb
      rcases List.mem_cons.1 hb with rfl | hb
      · exact Bool.not_eq_true _ ▸ hx
      · exact hpre b hb

theorem map_fst_filterMap_sublist {β γ : Type} (f : β → Option γ)
    (order : List β) :
    ((order.filterMap (fun a => (f a).map (fun x => (a, x)))).map
      Prod.fst).Sublist order := by
  induction order with
  | nil => simp
  | cons x xs ih =>
    cases hfx : f x with
    | none =>
      rw [List.filterMap_cons_none (by simp [hfx])]
      exact ih.cons x
    | some y =>
      have hfy : (fun a => (f a).map (fun x => (a, x))) x = some (x, y) := by
        simp [hfx]
      rw [@List.filterMap_cons_some β (β × γ)
        (fun a => (f a).map (fun x => (a, x))) x xs (x, y) hfy, List.map_cons]
      exact ih.cons₂ x

theorem map_fst_filterMap_eq {β γ : Type} (f : β → Option γ)
    (order : List β) (hs : ∀ a ∈ order, (f a).isSome) :
    (order.filterMap (fun a => (f a).map (fun x => (a, x)))).map
      Prod.fst = order := by
  induction order with
  | nil => rfl
  | cons x xs ih =>
    rcases Option.isSome_iff_exists.1 (hs x (List.mem_cons_self x xs)) with ⟨y, hy⟩
    have hfy : (fun a => (f a).map (fun x => (a, x))) x = some (x, y) := by
      simp [hy]
    rw [@List.filterMap_cons_some β (β × γ)
      (fun a => (f a).map (fun x => (a, x))) x xs (x, y) hfy, List.map_cons,
      ih (fun a ha => hs a (List.mem_cons_of_mem x ha))]

theorem groupAndCapCore_keys {α : Type} (items : List α)
    (labels : List Label) (m : Nat) (go : Option (List Label)) :
    (groupAndCapCore items labels m go).map Prod.fst =
      orderKeys (labelsPresent labels) go := by
  have hid : (Prod.fst ∘ fun lab : Label =>
      (lab, (groupItems items labels lab).take m)) = id := rfl
  rw [groupAndCapCore, List.map_map, hid, List.map_id]

theorem groupAndCap_ok_iff {α : Type} (items : List α) (labels : List Label)
    (m : Nat) (go : Option (List Label)) (gs : List (Label × List α)) :
    groupAndCap items labels m go = Except.ok gs ↔
      items.length = labels.length ∧ gs = groupAndCapCore items labels m go := by
  by_cases hl : items.length = labels.length
  · simp [groupAndCap, hl, eq_comm]
  · simp [groupAndCap, hl]

theorem mem_repKeep (labels ig : List Label) (a : Label) :
    a ∈ repKeep labels ig ↔ a ∈ labels ∧ a ∉ ig := by
  simp [repKeep, List.mem_filter, mem_labelsPresent, decide_eq_true_iff]

theorem nodup_repKeep (labels ig : List Label) : (repKeep labels ig).Nodup :=
  List.Nodup.filter _ (nodup_firstDedup labels)

theorem mem_of_mem_repOrder (labels ig : List Label)
    (lo : Option (List Label)) (a : Label) (h : a ∈ repOrder labels ig lo) :
    a ∈ repKeep labels ig := by
  cases lo with
  | some o =>
    rcases List.mem_filter.1 ((mem_firstDedup _ _).1 h) with ⟨_, h2⟩
    exact decide_eq_true_iff.1 h2
  | none => exact (List.mem_insertionSort _).1 h

theorem nodup_repOrder (labels ig : List Label) (lo : Option (List Label)) :
    (repOrder labels ig lo).Nodup := by
  cases lo with
  | some o => exact nodup_firstDedup _
  | none =>
    exact ((List.perm_insertionSort (· ≤ ·) _).nodup_iff).2
      (nodup_repKeep labels ig)

theorem firstItemFor_isSome {α : Type} (items : List α)
    (labels : List Label) (lab : Label)
    (hlen : labels.length ≤ items.length) (hmem : lab ∈ labels) :
    (firstItemFor items labels lab).isSome := by
  rw [firstItemFor, Option.isSome_map']
  rw [List.find?_isSome]
  have : lab ∈ (items.zip labels).map Prod.snd := by
    rw [List.map_snd_zip items labels hlen]; exact hmem
  rcases List.mem_map.1 this with ⟨p, hp, hsnd⟩
  exact ⟨p, hp, by simp [hsnd]⟩

/-! ### C3: groups are capped prefixes -/

/-- C3: every group produced by group-and-cap has length at most
`max_per_group`, and is a prefix, in original input order, of the full
item list of its label. -/
theorem groupAndCap_cap_and_order {α : Type} (items : List α)
    (labels : List Label) (m : Nat) (go : Option (List Label))
    (gs : List (Label × List α))
    (h : groupAndCap items labels m go = Except.ok gs) :
    ∀ lab g, (lab, g) ∈ gs →
      g.length ≤ m ∧ g <+: groupItems items labels lab := by
  intro lab g hmem
  rcases (groupAndCap_ok_iff _ _ _ _ _).1 h with ⟨_, rfl⟩
  rcases List.mem_map.1 hmem with ⟨lab', _, heq⟩
  injection heq with e₁ e₂
  subst e₁
  subst e₂
  constructor
  · exact List.length_take_le m _
  · exact List.take_prefix m _

/-- C3 witness: the spec's worked example — five items, alternating
labels, cap 2: the group of the first label is `[a, c]`. -/
theorem groupAndCap_cap_and_order_witness :
    ["a", "c"].length ≤ 2 ∧
    ["a", "c"] <+: groupItems ["a", "b", "c", "d", "e"]
      [Label.int 0, Label.int 1, Label.int 0, Label.int 1, Label.int 0]
      (Label.int 0) :=
  groupAndCap_cap_and_order ["a", "b", "c", "d", "e"]
    [Label.int 0, Label.int 1, Label.int 0, Label.int 1, Label.int 0] 2 none
    [(Label.int 0, ["a", "c"]), (Label.int 1, ["b", "d"])]
    rfl (Label.int 0) ["a", "c"] (List.mem_cons_self _ _)

/-! ### C4: groups partition the labelled items -/

/-- C4: with the default order, the keys of group-and-cap's output are
exactly the distinct labels present, no label is split across groups, and
(for duplicate-free items) no item lands in two different groups. -/
theorem groupAndCap_partition {α : Type} (items : List α)
    (labels : List Label) (m : Nat) (gs : List (Label × List α))
    (h : groupAndCap items labels m none = Except.ok gs) :
    (gs.map Prod.fst).Nodup ∧
    (∀ lab, lab ∈ gs.map Prod.fst ↔ lab ∈ labels) ∧
    (items.Nodup → ∀ l₁ g₁ l₂ g₂ x, (l₁, g₁) ∈ gs → (l₂, g₂) ∈ gs →
      x ∈ g₁ → x ∈ g₂ → l₁ = l₂) := by
  rcases (groupAndCap_ok_iff _ _ _ _ _).1 h with ⟨hlen, rfl⟩
  refine ⟨?_, ?_, ?_⟩
  · rw [groupAndCapCore_keys]
    exact nodup_orderKeys _ _ (nodup_firstDedup _)
  · intro lab
    rw [groupAndCapCore_keys, mem_orderKeys]
    exact mem_labelsPresent labels lab
  · intro hnd l₁ g₁ l₂ g₂ x h₁ h₂ hx₁ hx₂
    rcases List.mem_map.1 h₁ with ⟨la₁, _, heq₁⟩
    injection heq₁ with e₁ e₂
    rcases List.mem_map.1 h₂ with ⟨la₂, _, heq₂⟩
    injection heq₂ with e₃ e₄
    have hx₁' : x ∈ (groupItems items labels la₁).take m := by
      rw [e₂]; exact hx₁
    have hx₂' : x ∈ (groupItems items labels la₂).take m := by
      rw [e₄]; exact hx₂
    have hp₁ : (x, la₁) ∈ items.zip labels :=
      (mem_groupItems items labels la₁ x).1 (List.mem_of_mem_take hx₁')
    have hp₂ : (x, la₂) ∈ items.zip labels :=
      (mem_groupItems items labels la₂ x).1 (List.mem_of_mem_take hx₂')
    have hfst : ((items.zip labels).map Prod.fst).Nodup := by
      rw [List.map_fst_zip items labels (le_of_eq hlen)]
      exact hnd
    have hpair := List.inj_on_of_nodup_map hfst hp₁ hp₂ rfl
    injection hpair with _ e
    rw [← e₁, ← e₃]
    exact e

/-- C4 witness: the partition properties at the spec's worked example. -/
theorem groupAndCap_partition_witness :
    (([(Label.int 0, ["a", "c"]), (Label.int 1, ["b", "d"])].map
        Prod.fst).Nodup ∧
      (∀ lab, lab ∈ [(Label.int 0, ["a", "c"]),
          (Label.int 1, ["b", "d"])].map Prod.fst ↔
        lab ∈ [Label.int 0, Label.int 1, Label.int 0, Label.int 1,
          Label.int 0]) ∧
      (["a", "b", "c", "d", "e"].Nodup →
        ∀ l₁ g₁ l₂ g₂ x,
          (l₁, g₁) ∈ [(Label.int 0, ["a", "c"]), (Label.int 1, ["b", "d"])] →
          (l₂, g₂) ∈ [(Label.int 0, ["a", "c"]), (Label.int 1, ["b", "d"])] →
          x ∈ g₁ → x ∈ g₂ → l₁ = l₂)) :=
  groupAndCap_partition ["a", "b", "c", "d", "e"]
    [Label.int 0, Label.int 1, Label.int 0, Label.int 1, Label.int 0] 2
    [(Label.int 0, ["a", "c"]), (Label.int 1, ["b", "d"])] rfl

/-! ### C5: one representative per label, the first occurrence -/

/-- C5: representative-select returns at most one item per distinct label,
and the item returned for a label is the first one (smallest original
index) bearing that label: the zipped input splits as
`pre ++ (item, label) :: post` with no occurrence of the label in `pre`. -/
theorem representativeSelect_first_per_label {α : Type} (items : List α)
    (labels ig : List Label) (lo : Option (List Label))
    (_h : items.length = labels.length) :
    ((representativeSelect items labels ig lo).map Prod.fst).Nodup ∧
    ∀ lab x, (lab, x) ∈ representativeSelect items labels ig lo →
      ∃ pre post, items.zip labels = pre ++ (x, lab) :: post ∧
        ∀ p ∈ pre, p.2 ≠ lab := by
  constructor
  · exact (map_fst_filterMap_sublist _ _).nodup (nodup_repOrder labels ig lo)
  · intro lab x hmem
    rcases List.mem_filterMap.1 hmem with ⟨lab', _, hf⟩
    rcases Option.map_eq_some'.1 hf with ⟨x', hx', heq⟩
    injection heq with e₁ e₂
    rw [e₁] at hx'
    rcases Option.map_eq_some'.1 hx' with ⟨p, hp, hpx⟩
    obtain ⟨a, b⟩ := p
    have hb : b = lab := by simpa using List.find?_some hp
    simp only at hpx
    rw [e₂] at hpx
    subst hpx
    subst hb
    rcases find?_eq_some_split _ _ _ hp with ⟨pre, post, hsplit, hpre⟩
    refine ⟨pre, post, hsplit, ?_⟩
    intro q hq
    simpa using hpre q hq

/-- C5 witness: three items with a repeated first label — each label's
representative is its first occurrence. -/
theorem representativeSelect_first_per_label_witness :
    ((representativeSelect ["a", "b", "c"]
        [Label.int 0, Label.int 2, Label.int 0] [] none).map Prod.fst).Nodup ∧
    ∀ lab x, (lab, x) ∈ representativeSelect ["a", "b", "c"]
        [Label.int 0, Label.int 2, Label.int 0] [] none →
      ∃ pre post,
        (["a", "b", "c"].zip [Label.int 0, Label.int 2, Label.int 0]) =
          pre ++ (x, lab) :: post ∧ ∀ p ∈ pre, p.2 ≠ lab :=
  representativeSelect_first_per_label ["a", "b", "c"]
    [Label.int 0, Label.int 2, Label.int 0] [] none rfl

/-! ### C6: ignored labels never appear -/

/-- C6: no label belonging to the ignore set appears in
representative-select's output. -/
theorem representativeSelect_ignores {α : Type} (items : List α)
    (labels ig : List Label) (lo : Option (List Label))
    (_h : items.length = labels.length) :
    ∀ lab x, (lab, x) ∈ representativeSelect items labels ig lo →
      lab ∉ ig := by
  intro lab x hmem
  rcases List.mem_filterMap.1 hmem with ⟨lab', hlab', hf⟩
  rcases Option.map_eq_some'.1 hf with ⟨x', _, heq⟩
  injection heq with e₁ _
  subst e₁
  exact ((mem_repKeep labels ig lab').1
    (mem_of_mem_repOrder labels ig lo lab' hlab')).2

/-- C6 witness: with label 1 ignored the output is `[(0, a)]`, and the
theorem applied to that output pair shows its label is not ignored. -/
theorem representativeSelect_ignores_witness :
    Label.int 0 ∉ [Label.int 1] :=
  representativeSelect_ignores ["a", "b"] [Label.int 0, Label.int 1]
    [Label.int 1] none rfl (Label.int 0) "a" (by decide)

/-! ### C7: output order -/

theorem representativeSelect_keys {α : Type} (items : List α)
    (labels ig : List Label) (lo : Option (List Label))
    (hlen : labels.length ≤ items.length) :
    (representativeSelect items labels ig lo).map Prod.fst =
      repOrder labels ig lo := by
  apply map_fst_filterMap_eq
  intro lab hlab
  have hm : lab ∈ labels :=
    ((mem_repKeep labels ig lab).1
      (mem_of_mem_repOrder labels ig lo lab hlab)).1
  exact firstItemFor_isSome items labels lab hlen hm

/-- C7: with a supplied (duplicate-free) group order or label order, the
output order equals that order restricted to labels present in the input;
without one, the output order is the natural sorted order of the distinct
labels (sorted, duplicate-free, containing exactly the labels present).
For representative-select this is stated with an empty ignore set, since
ignored labels are additionally removed (claim C6). -/
theorem output_order_spec {α : Type} (items : List α) (labels : List Label)
    (m : Nat) (h : items.length = labels.length) :
    (∀ go gs, go.Nodup →
      groupAndCap items labels m (some go) = Except.ok gs →
      gs.map Prod.fst = go.filter (fun l => decide (l ∈ labels))) ∧
    (∀ gs, groupAndCap items labels m none = Except.ok gs →
      List.Sorted (· ≤ ·) (gs.map Prod.fst) ∧ (gs.map Prod.fst).Nodup ∧
      ∀ l, l ∈ gs.map Prod.fst ↔ l ∈ labels) ∧
    (∀ lo, lo.Nodup →
      (representativeSelect items labels [] (some lo)).map Prod.fst =
        lo.filter (fun l => decide (l ∈ labels))) ∧
    (List.Sorted (· ≤ ·)
        ((representativeSelect items labels [] none).map Prod.fst) ∧
      ((representativeSelect items labels [] none).map Prod.fst).Nodup ∧
      ∀ l, l ∈ (representativeSelect items labels [] none).map Prod.fst ↔
        l ∈ labels) := by
  refine ⟨?_, ?_, ?_, ?_⟩
  · intro go gs hnd hok
    rcases (groupAndCap_ok_iff _ _ _ _ _).1 hok with ⟨_, rfl⟩
    rw [groupAndCapCore_keys]
    show firstDedup (go.filter (fun l => decide (l ∈ labelsPresent labels))) = _
    rw [firstDedup_eq_of_nodup _ (hnd.filter _)]
    exact List.filter_congr
      (fun a _ => decide_eq_decide.2 (mem_labelsPresent labels a))
  · intro gs hok
    rcases (groupAndCap_ok_iff _ _ _ _ _).1 hok with ⟨_, rfl⟩
    rw [groupAndCapCore_keys]
    refine ⟨?_, nodup_orderKeys _ _ (nodup_firstDedup _), ?_⟩
    · show List.Sorted (· ≤ ·)
        (List.insertionSort (· ≤ ·) (labelsPresent labels))
      exact List.sorted_insertionSort _ _
    · intro l
      rw [mem_orderKeys]
      exact mem_labelsPresent labels l
  · intro lo hnd
    rw [representativeSelect_keys items labels [] (some lo) (le_of_eq h.symm)]
    show firstDedup (lo.filter (fun l => decide (l ∈ repKeep labels []))) = _
    rw [firstDedup_eq_of_nodup _ (hnd.filter _)]
    refine List.filter_congr (fun a _ => decide_eq_decide.2 ?_)
    rw [mem_repKeep]
    simp
  · rw [representativeSelect_keys items labels [] none (le_of_eq h.symm)]
    refine ⟨?_, nodup_repOrder _ _ _, ?_⟩
    · show List.Sorted (· ≤ ·)
        (List.insertionSort (· ≤ ·) (repKeep labels []))
      exact List.sorted_insertionSort _ _
    · intro l
      show l ∈ List.insertionSort (· ≤ ·) (repKeep labels []) ↔ l ∈ labels
      rw [List.mem_insertionSort, mem_repKeep]
      simp

/-- C7 witness: the order properties at a concrete two-label input whose
natural order differs from the input order. -/
theorem output_order_spec_witness :
    (∀ go gs, go.Nodup →
      groupAndCap ["a", "b"] [Label.int 1, Label.int 0] 3 (some go) =
        Except.ok gs →
      gs.map Prod.fst =
        go.filter (fun l => decide (l ∈ [Label.int 1, Label.int 0]))) ∧
    (∀ gs, groupAndCap ["a", "b"] [Label.int 1, Label.int 0] 3 none =
        Except.ok gs →
      List.Sorted (· ≤ ·) (gs.map Prod.fst) ∧ (gs.map Prod.fst).Nodup ∧
      ∀ l, l ∈ gs.map Prod.fst ↔ l ∈ [Label.int 1, Label.int 0]) ∧
    (∀ lo, lo.Nodup →
      (representativeSelect ["a", "b"] [Label.int 1, Label.int 0] []
          (some lo)).map Prod.fst =
        lo.filter (fun l => decide (l ∈ [Label.int 1, Label.int 0]))) ∧
    (List.Sorted (· ≤ ·)
        ((representativeSelect ["a", "b"] [Label.int 1, Label.int 0] []
          none).map Prod.fst) ∧
      ((representativeSelect ["a", "b"] [Label.int 1, Label.int 0] []
          none).map Prod.fst).Nodup ∧
      ∀ l, l ∈ (representativeSelect ["a", "b"] [Label.int 1, Label.int 0] []
          none).map Prod.fst ↔ l ∈ [Label.int 1, Label.int 0]) :=
  output_order_spec ["a", "b"] [Label.int 1, Label.int 0] 3 rfl
